import Mathlib

/-!
Verification development for the Motion Wave hand-gesture harmony application.

The embedding below models, in Lean, the algorithmic core of the source:
the pitch quantizer `pitchToMidi`, the gesture classifier `detectVowel`,
hand-role resolution in `onResults`, the harmonization deduplication step,
the SATB audio engine (`playChord` / `stopAll` / `setMasterVolume`), the
per-frame control-state update, and the harmony-response handler
`handleHarmonyReceived` of `useHarmonizer`.

Numbers that are JavaScript floats in the source are modelled as rationals
(`ℚ`); MIDI notes are integers (`ℤ`).
-/

namespace MotionWave

/-- Semitone offsets of the white keys from C within one octave
(source constant `whiteKeyPattern` in `pitchToMidi`). -/
def whiteKeyPattern : List ℤ := [0, 2, 4, 5, 7, 9, 11]

/-- One iteration of the octave loop in `pitchToMidi`: for octave 4 it emits
note indices 0..6 (C through B), for octave 5 indices 0..2 (C through E),
each as the MIDI note `(octave + 1) * 12 + whiteKeyPattern[noteIdx]`. -/
def whiteKeysOctave (octave : ℤ) : List ℤ :=
  let endIdx : Nat := if octave = 5 then 2 else 6
  (List.range (endIdx + 1)).map (fun noteIdx =>
    (octave + 1) * 12 + whiteKeyPattern.getD noteIdx 0)

/-- The fixed white-key scale built by the loop in `pitchToMidi`
(octaves 4 then 5): C4..B4 followed by C5..E5. -/
def whiteKeys : List ℤ := whiteKeysOctave 4 ++ whiteKeysOctave 5

/-- Source `pitchToMidi`: `keyIndex = Math.floor(pitch * (whiteKeys.length - 1))`,
then `whiteKeys[keyIndex]`.  For the pitch values the app produces
(`pitch ∈ [0,1]`) the index is in bounds; `getD` supplies a default
outside that range where JavaScript would yield `undefined`. -/
def pitchToMidi (pitch : ℚ) : ℤ :=
  let keyIndex : ℤ := ⌊pitch * ((whiteKeys.length : ℚ) - 1)⌋
  whiteKeys.getD keyIndex.toNat 0

/-- Modelled from the spec: the quantizer the spec describes (and which the
source does not contain) — a 15-note natural (white-key) scale ascending from
C4 through the 4th and 5th octaves, indexed by `floor(pitchPosition × 14)`
clamped to `[0,14]`. -/
def specScale15 : List ℤ :=
  [60, 62, 64, 65, 67, 69, 71, 72, 74, 76, 77, 79, 81, 83, 84]

/-- Modelled from the spec: index selection `floor(pitchPosition × 14)`
clamped to `[0,14]` into `specScale15`. -/
def specQuantize15 (pitch : ℚ) : ℤ :=
  specScale15.getD (min 14 (Int.toNat ⌊pitch * 14⌋)) 0

/-- One MediaPipe hand landmark: a normalized image-space point
(the optional depth `z` is unused by the modelled code). -/
structure Landmark where
  x : ℚ
  y : ℚ
deriving DecidableEq, Repr

/-- Gesture class returned by `detectVowel`: `A` = open palm,
`O` = fist, `NONE` = unclear. -/
inductive Vowel
  | A
  | O
  | NONE
deriving DecidableEq, BEq, Repr

/-- The four finger (tip, pip) landmark pairs used by `detectVowel`:
index (8,6), middle (12,10), ring (16,14), pinky (20,18).  A missing
landmark entry is `none`. -/
def fingerPairs (landmarks : List (Option Landmark)) :
    List (Option Landmark × Option Landmark) :=
  [(landmarks.getD 8 none, landmarks.getD 6 none),
   (landmarks.getD 12 none, landmarks.getD 10 none),
   (landmarks.getD 16 none, landmarks.getD 14 none),
   (landmarks.getD 20 none, landmarks.getD 18 none)]

/-- Source filter `fingers.filter(finger => finger.tip && finger.pip)`:
keep only pairs whose tip and pip landmarks are both present. -/
def validFingers (landmarks : List (Option Landmark)) : List (Landmark × Landmark) :=
  (fingerPairs landmarks).filterMap (fun f =>
    match f with
    | (some tip, some pip) => some (tip, pip)
    | _ => none)

/-- Number of valid pairs with `tip.y < pip.y` (finger extended). -/
def extendedFingers (landmarks : List (Option Landmark)) : Nat :=
  ((validFingers landmarks).filter (fun f => decide (f.1.y < f.2.y))).length

/-- Number of valid pairs with `tip.y > pip.y` (finger folded). -/
def foldedFingers (landmarks : List (Option Landmark)) : Nat :=
  ((validFingers landmarks).filter (fun f => decide (f.1.y > f.2.y))).length

/-- Source `detectVowel` (part_000 variant, with the valid-pair filter):
fewer than 21 landmarks or fewer than 3 valid pairs classify as `NONE`;
at least 3 extended pairs give `A`; else at least 3 folded give `O`;
otherwise `NONE`. -/
def detectVowel (landmarks : List (Option Landmark)) : Vowel :=
  if landmarks.length < 21 then Vowel.NONE
  else if (validFingers landmarks).length < 3 then Vowel.NONE
  else if 3 ≤ extendedFingers landmarks then Vowel.A
  else if 3 ≤ foldedFingers landmarks then Vowel.O
  else Vowel.NONE

/-- Source role test in `onResults`:
`(handPreference === 'right' && isLeftHand) || (handPreference === 'left' && isRightHand)`. -/
def isControlHand (handPreference : String) (handedness : String) : Bool :=
  (handPreference == "right" && handedness == "Left") ||
  (handPreference == "left" && handedness == "Right")

/-- Source role test in `onResults`:
`(handPreference === 'right' && isRightHand) || (handPreference === 'left' && isLeftHand)`. -/
def isVolumeHand (handPreference : String) (handedness : String) : Bool :=
  (handPreference == "right" && handedness == "Right") ||
  (handPreference == "left" && handedness == "Left")

/-- React state for the control hand (`HandPosition` in the source). -/
structure HandPosition where
  x : ℚ
  y : ℚ
  detected : Bool
  vowel : Vowel
deriving DecidableEq, Repr

/-- React state for the volume hand (`VolumeHand` in the source). -/
structure VolumeHand where
  y : ℚ
  detected : Bool
deriving DecidableEq, Repr

/-- End-of-frame control-hand update in `onResults`: fresh data wins;
with no assigned hand this frame the previous value is kept with
`detected := false, vowel := 'NONE'` (spread of `prev`). -/
def setControlHandFrame (prev : HandPosition) (controlHandData : Option HandPosition) :
    HandPosition :=
  match controlHandData with
  | some d => d
  | none => { prev with detected := false, vowel := Vowel.NONE }

/-- End-of-frame volume-hand update in `onResults`: fresh data wins;
with no assigned hand this frame the previous value is kept with
`detected := false` (spread of `prev`). -/
def setVolumeHandFrame (prev : VolumeHand) (volumeHandData : Option VolumeHand) :
    VolumeHand :=
  match volumeHandData with
  | some d => d
  | none => { prev with detected := false }

/-- Source `getPitchFromY`: clamp `1 - y` to `[0,1]`. -/
def getPitchFromY (y : ℚ) : ℚ := max 0 (min 1 (1 - y))

/-- Source `getVolumeFromY`: clamp `1 - y` to `[0,1]`. -/
def getVolumeFromY (y : ℚ) : ℚ := max 0 (min 1 (1 - y))

/-- Source `currentPitch = controlHand.detected ? getPitchFromY(controlHand.y) : 0`. -/
def currentPitch (controlHand : HandPosition) : ℚ :=
  if controlHand.detected then getPitchFromY controlHand.y else 0

/-- Source `currentVolume = volumeHand.detected ? getVolumeFromY(volumeHand.y) : 0.5`. -/
def currentVolume (volumeHand : VolumeHand) : ℚ :=
  if volumeHand.detected then getVolumeFromY volumeHand.y else 1/2

/-- Source volume effect:
`targetVolume = volumeHand.detected ? currentVolume : 0.5`, the value passed
to `audioEngine.setMasterVolume` each frame. -/
def targetVolume (volumeHand : VolumeHand) : ℚ :=
  if volumeHand.detected then currentVolume volumeHand else 1/2

/-- Per-frame inputs read by the harmonization effect. -/
structure FrameInput where
  detected : Bool
  vowel : Vowel
  pitch : ℚ
  harmonizerReady : Bool
deriving Repr

/-- Outcome of one run of the harmonization effect: the new value of
`lastPlayedNoteRef`, the harmonization request submitted this frame (if
any), and whether `audioEngine.stopAll()` was called. -/
structure HarmonizationEffect where
  lastPlayedNote : Option ℤ
  request : Option ℤ
  stoppedAudio : Bool
deriving DecidableEq, Repr

/-- Source harmonization effect: when the control hand is detected, the
harmonizer ready and the vowel not `'NONE'`, quantize the pitch and submit
it iff it differs from `lastPlayedNoteRef`, recording it immediately;
otherwise when the hand is lost or the vowel is `'NONE'`, stop audio and
clear `lastPlayedNoteRef`. -/
def harmonizationStep (lastPlayedNote : Option ℤ) (inp : FrameInput) :
    HarmonizationEffect :=
  if inp.detected && inp.harmonizerReady && !(inp.vowel == Vowel.NONE) then
    let currentMidiNote := pitchToMidi inp.pitch
    if some currentMidiNote ≠ lastPlayedNote then
      ⟨some currentMidiNote, some currentMidiNote, false⟩
    else ⟨lastPlayedNote, none, false⟩
  else if !inp.detected || (inp.vowel == Vowel.NONE) then
    ⟨none, none, true⟩
  else ⟨lastPlayedNote, none, false⟩

/-- Fade-out window used by `VocalVoice.stop` (source `releaseTime = 0.1`). -/
def releaseTime : ℚ := 1/10

/-- What `VocalVoice.stop` schedules: a linear gain ramp to `rampTarget`
over `rampDuration`, and the oscillators stopping `oscStopDelay` after the
ramp begins. -/
structure StopAction where
  rampDuration : ℚ
  rampTarget : ℚ
  oscStopDelay : ℚ
deriving DecidableEq, Repr

/-- One SATB voice (`VocalVoice` in the source); the audio-node plumbing is
not observable for the claims, so a voice is its note and part name. -/
structure VocalVoice where
  midiNote : ℤ
  voiceType : String
deriving DecidableEq, Repr

/-- Source `VocalVoice.stop`: cancel pending gain automation, ramp the gain
linearly from its current value to 0 over `releaseTime`, and stop both
oscillators at `now + releaseTime`. -/
def VocalVoice.stop (_voice : VocalVoice) : StopAction :=
  { rampDuration := releaseTime, rampTarget := 0, oscStopDelay := releaseTime }

/-- The engine's voice map `currentVoices : Map<string, VocalVoice>`,
modelled as an association list with distinct keys. -/
structure EngineState where
  currentVoices : List (String × VocalVoice)
deriving DecidableEq, Repr

/-- JavaScript `Map.set`: replace the entry with the given key if present,
otherwise append it. -/
def mapSet (m : List (String × VocalVoice)) (key : String) (voice : VocalVoice) :
    List (String × VocalVoice) :=
  if m.any (fun p => p.1 == key) then
    m.map (fun p => if p.1 == key then (key, voice) else p)
  else m ++ [(key, voice)]

/-- Source `VocalAudioEngine.stopAll`: call `stop()` on every current voice
(each a fade-out) and clear the map. -/
def stopAll (s : EngineState) : EngineState × List StopAction :=
  (⟨[]⟩, s.currentVoices.map (fun p => p.2.stop))

/-- Source `VocalAudioEngine.playChord`: `stopAll()` first (fading out every
current voice), then `set` four fresh voices keyed soprano/alto/tenor/bass. -/
def playChord (s : EngineState) (soprano alto tenor bass : ℤ) :
    EngineState × List StopAction :=
  let stopped := stopAll s
  let m1 := mapSet stopped.1.currentVoices "soprano" ⟨soprano, "soprano"⟩
  let m2 := mapSet m1 "alto" ⟨alto, "alto"⟩
  let m3 := mapSet m2 "tenor" ⟨tenor, "tenor"⟩
  let m4 := mapSet m3 "bass" ⟨bass, "bass"⟩
  (⟨m4⟩, stopped.2)

/-- Engine states reachable from the initial empty voice map through the
engine's two voice-set-mutating operations. -/
inductive Reachable : EngineState → Prop
  | init : Reachable ⟨[]⟩
  | play (s : EngineState) (soprano alto tenor bass : ℤ) :
      Reachable s → Reachable (playChord s soprano alto tenor bass).1
  | stopAllStep (s : EngineState) : Reachable s → Reachable (stopAll s).1

/-- Master-volume transition window (source `transitionTime = 0.05`). -/
def volumeTransitionTime : ℚ := 1/20

/-- A scheduled linear gain automation segment: Web Audio
`setValueAtTime(startValue, startTime)` followed by
`linearRampToValueAtTime(endValue, endTime)`. -/
structure RampEvent where
  startTime : ℚ
  startValue : ℚ
  endTime : ℚ
  endValue : ℚ
deriving DecidableEq, Repr

/-- Source `VocalAudioEngine.setMasterVolume` on an initialized engine:
cancel pending automation, clamp the target to `[0,1]`, anchor the gain at
its current instantaneous value `gainValue` at time `now`, and ramp
linearly to the clamped target at `now + volumeTransitionTime`. -/
def setMasterVolume (gainValue now volume : ℚ) : RampEvent :=
  let clampedVolume := max 0 (min 1 volume)
  ⟨now, gainValue, now + volumeTransitionTime, clampedVolume⟩

/-- Web Audio rendering of a single linear automation segment: constant at
`startValue` before it, linear interpolation inside it, constant at
`endValue` after it. -/
def renderRamp (e : RampEvent) (t : ℚ) : ℚ :=
  if t ≤ e.startTime then e.startValue
  else if e.endTime ≤ t then e.endValue
  else
    e.startValue + (t - e.startTime) * (e.endValue - e.startValue) /
      (e.endTime - e.startTime)

/-- A note coming back from the harmonizer worker; only its MIDI number is
observable to the modelled code. -/
structure HarmonizerNote where
  midiNote : ℤ
deriving DecidableEq, Repr, Inhabited

/-- A four-part chord (`HarmonyChord` in the source types). -/
structure HarmonyChord where
  soprano : HarmonizerNote
  alto : HarmonizerNote
  tenor : HarmonizerNote
  bass : HarmonizerNote
deriving DecidableEq, Repr

/-- The recorded sequence (`HarmonySequence`), reduced to the fields
`handleHarmonyReceived` reads or writes. -/
structure HarmonySequence where
  melody : List ℤ
  harmonies : List HarmonyChord
deriving DecidableEq, Repr

/-- The `useHarmonizer` state touched by `handleHarmonyReceived`. -/
structure HarmonizerHookState where
  currentHarmony : Option HarmonyChord
  currentSequence : Option HarmonySequence
deriving DecidableEq, Repr

/-- Source `handleHarmonyReceived`: fewer than 4 notes returns with no
state change; otherwise destructure the first four notes positionally as
soprano, alto, tenor, bass, set them as the current harmony, and (outside
real-time mode, with a sequence active) append the chord to the sequence. -/
def handleHarmonyReceived (isRealTimeMode : Bool) (st : HarmonizerHookState)
    (notes : List HarmonizerNote) : HarmonizerHookState :=
  if notes.length < 4 then st
  else
    let newChord : HarmonyChord :=
      ⟨notes.getD 0 default, notes.getD 1 default,
       notes.getD 2 default, notes.getD 3 default⟩
    let st1 := { st with currentHarmony := some newChord }
    if !isRealTimeMode then
      match st.currentSequence with
      | some seq =>
          { st1 with currentSequence := some { seq with harmonies := seq.harmonies ++ [newChord] } }
      | none => st1
    else st1

end MotionWave

namespace MotionWave

/-! ## Helper lemmas shared across the claims about `pitchToMidi` -/

/-- The scale the loop actually builds: the 10 white keys C4..E5. -/
theorem whiteKeys_eq : whiteKeys = [60, 62, 64, 65, 67, 69, 71, 72, 74, 76] := by decide

/-- Evaluation form of `pitchToMidi`: index `⌊p * 9⌋` into the 10-note list. -/
theorem pitchToMidi_eval (p : ℚ) :
    pitchToMidi p =
      ([60, 62, 64, 65, 67, 69, 71, 72, 74, 76] : List ℤ).getD (Int.toNat ⌊p * 9⌋) 0 := by
  unfold pitchToMidi
  rw [whiteKeys_eq]
  norm_num

/-- The concrete scale is sorted, read through `getD`. -/
theorem whiteKeys_getD_mono : ∀ j, j < 10 → ∀ i, i ≤ j →
    ([60, 62, 64, 65, 67, 69, 71, 72, 74, 76] : List ℤ).getD i 0 ≤
    ([60, 62, 64, 65, 67, 69, 71, 72, 74, 76] : List ℤ).getD j 0 := by decide

/-- Every in-range `getD` access of the concrete scale is a member of
`whiteKeys` and also of the 15 naturals the spec names. -/
theorem whiteKeys_getD_mem : ∀ i, i < 10 →
    ([60, 62, 64, 65, 67, 69, 71, 72, 74, 76] : List ℤ).getD i 0 ∈ whiteKeys ∧
    ([60, 62, 64, 65, 67, 69, 71, 72, 74, 76] : List ℤ).getD i 0 ∈ specScale15 := by decide

/-- For `p ≤ 1` the quantizer's key index stays within the 10-note scale. -/
theorem floorIndex_le_nine (p : ℚ) (h1 : p ≤ 1) : Int.toNat ⌊p * 9⌋ ≤ 9 := by
  have h : ⌊p * 9⌋ ≤ 9 := by
    have hp : p * 9 ≤ 9 := by nlinarith
    calc ⌊p * 9⌋ ≤ ⌊(9 : ℚ)⌋ := Int.floor_le_floor hp
    _ = 9 := by norm_num
  omega

/-- C1 counterexample: the source scale has 10 notes (C4..E5), not 15, and at
`pitchPosition = 1/2` the source quantizer picks G4 (67) where the claimed
15-note, `floor(p × 14)`-indexed quantizer picks C5 (72). -/
theorem pitchToMidi_refutes_fifteen_note_claim :
    whiteKeys.length = 10 ∧ ¬ whiteKeys.length = 15 ∧
    pitchToMidi (1/2) = 67 ∧ specQuantize15 (1/2) = 72 ∧
    ¬ pitchToMidi (1/2) = specQuantize15 (1/2) := by
  have h1 : pitchToMidi (1/2) = 67 := by
    rw [pitchToMidi_eval]
    norm_num
    all_goals decide
  have h2 : specQuantize15 (1/2) = 72 := by
    unfold specQuantize15
    norm_num
    all_goals decide
  refine ⟨by decide, by decide, h1, h2, ?_⟩
  rw [h1, h2]
  decide

/-- C1 (amended): for every `pitchPosition ∈ [0,1]` the quantizer selects the
note at index `floor(pitchPosition × 9)` (always in `[0,9]`) of the fixed
ascending 10-note white-key scale C4..E5, so the result is in the scale. -/
theorem pitchToMidi_ten_note_scale (p : ℚ) (_h0 : 0 ≤ p) (h1 : p ≤ 1) :
    whiteKeys = [60, 62, 64, 65, 67, 69, 71, 72, 74, 76] ∧
    pitchToMidi p = whiteKeys.getD (Int.toNat ⌊p * 9⌋) 0 ∧
    Int.toNat ⌊p * 9⌋ ≤ 9 ∧
    pitchToMidi p ∈ whiteKeys := by
  have hb := floorIndex_le_nine p h1
  refine ⟨whiteKeys_eq, ?_, hb, ?_⟩
  · rw [pitchToMidi_eval, whiteKeys_eq]
  · rw [pitchToMidi_eval]
    exact (whiteKeys_getD_mem _ (by omega)).1

/-- Witness for the amended C1 theorem at `pitchPosition = 1/2`. -/
theorem pitchToMidi_ten_note_scale_witness :
    (0 : ℚ) ≤ 1/2 ∧ (1/2 : ℚ) ≤ 1 ∧ pitchToMidi (1/2) ∈ whiteKeys :=
  ⟨by norm_num, by norm_num,
   (pitchToMidi_ten_note_scale (1/2) (by norm_num) (by norm_num)).2.2.2⟩

/-- C2: over `[0,1]` the quantized note is monotonically non-decreasing in the
pitch position, and always lies in the fixed white-key scale — in particular
inside the two-octave natural-note (diatonic) range the spec describes. -/
theorem pitchToMidi_monotone_in_range (p q : ℚ) (_h0 : 0 ≤ p) (hpq : p ≤ q) (h1 : q ≤ 1) :
    pitchToMidi p ≤ pitchToMidi q ∧
    pitchToMidi p ∈ whiteKeys ∧ pitchToMidi p ∈ specScale15 := by
  have hij : Int.toNat ⌊p * 9⌋ ≤ Int.toNat ⌊q * 9⌋ := by
    have : ⌊p * 9⌋ ≤ ⌊q * 9⌋ :=
      Int.floor_le_floor (mul_le_mul_of_nonneg_right hpq (by norm_num))
    omega
  have hj : Int.toNat ⌊q * 9⌋ ≤ 9 := floorIndex_le_nine q h1
  have hi : Int.toNat ⌊p * 9⌋ ≤ 9 := le_trans hij hj
  refine ⟨?_, ?_, ?_⟩
  · rw [pitchToMidi_eval, pitchToMidi_eval]
    exact whiteKeys_getD_mono _ (by omega) _ hij
  · rw [pitchToMidi_eval]
    exact (whiteKeys_getD_mem _ (by omega)).1
  · rw [pitchToMidi_eval]
    exact (whiteKeys_getD_mem _ (by omega)).2

/-- Witness for C2 at the endpoints 0 and 1. -/
theorem pitchToMidi_monotone_in_range_witness :
    pitchToMidi 0 ≤ pitchToMidi 1 ∧
    pitchToMidi 0 ∈ whiteKeys ∧ pitchToMidi 0 ∈ specScale15 :=
  pitchToMidi_monotone_in_range 0 1 (by norm_num) (by norm_num) (by norm_num)

/-- C3: pitch position 0 maps to the lowest note of the scale range (C4 = 60)
and pitch position 1 to the highest (E5 = 76); every scale note lies between
those two, which both belong to the scale. -/
theorem pitchToMidi_endpoints :
    pitchToMidi 0 = 60 ∧ pitchToMidi 1 = 76 ∧
    whiteKeys.all (fun n => decide (60 ≤ n ∧ n ≤ 76)) = true ∧
    60 ∈ whiteKeys ∧ 76 ∈ whiteKeys := by
  have h0 : pitchToMidi 0 = 60 := by
    rw [pitchToMidi_eval]
    norm_num
  have h1 : pitchToMidi 1 = 76 := by
    rw [pitchToMidi_eval]
    norm_num
    all_goals decide
  exact ⟨h0, h1, by decide, by decide, by decide⟩

/-! ## Helper lemmas for the gesture classifier -/

/-- Counting two mutually exclusive predicates over a list never exceeds its
length. -/
theorem length_filter_disjoint {α : Type} (l : List α) (p q : α → Bool)
    (h : ∀ a, p a = true → q a = false) :
    (l.filter p).length + (l.filter q).length ≤ l.length := by
  induction l with
  | nil => simp
  | cons a l ih =>
    cases hpa : p a with
    | true =>
      have hqa : q a = false := h a hpa
      simp [List.filter_cons, hpa, hqa]
      omega
    | false =>
      cases hqa : q a <;> simp [List.filter_cons, hpa, hqa] <;> omega

/-- Extended pairs are a sub-multiset of the valid pairs. -/
theorem extended_le_valid (lms : List (Option Landmark)) :
    extendedFingers lms ≤ (validFingers lms).length :=
  List.length_filter_le _ _

/-- Folded pairs are a sub-multiset of the valid pairs. -/
theorem folded_le_valid (lms : List (Option Landmark)) :
    foldedFingers lms ≤ (validFingers lms).length :=
  List.length_filter_le _ _

/-- At most four valid pairs exist, one per finger. -/
theorem valid_le_four (lms : List (Option Landmark)) :
    (validFingers lms).length ≤ 4 := by
  unfold validFingers
  have h := List.length_filterMap_le (fun f : Option Landmark × Option Landmark =>
    match f with
    | (some tip, some pip) => some (tip, pip)
    | x => none) (fingerPairs lms)
  have h4 : (fingerPairs lms).length = 4 := rfl
  omega

/-- A finger cannot be extended and folded at once, so the two counts sum to
at most the number of valid pairs. -/
theorem extended_folded_le_valid (lms : List (Option Landmark)) :
    extendedFingers lms + foldedFingers lms ≤ (validFingers lms).length := by
  apply length_filter_disjoint
  intro a ha
  have hlt : a.1.y < a.2.y := of_decide_eq_true ha
  simp only [decide_eq_false_iff_not]
  exact not_lt_of_gt hlt

/-- C4: gesture classification needs at least 3 valid (tip, pip) pairs to
classify at all; with 21 landmarks present, at least 3 extended pairs give
`A` (Open) and at least 3 folded pairs give `O` (Closed); otherwise —
including a 2/2 split — the result is `NONE`. -/
theorem detectVowel_classification (lms : List (Option Landmark)) :
    ((validFingers lms).length < 3 → detectVowel lms = Vowel.NONE) ∧
    (21 ≤ lms.length → 3 ≤ extendedFingers lms → detectVowel lms = Vowel.A) ∧
    (21 ≤ lms.length → 3 ≤ foldedFingers lms → detectVowel lms = Vowel.O) ∧
    (extendedFingers lms < 3 → foldedFingers lms < 3 → detectVowel lms = Vowel.NONE) := by
  have hev := extended_le_valid lms
  have hfv := folded_le_valid lms
  have hv4 := valid_le_four lms
  have hsum := extended_folded_le_valid lms
  refine ⟨?_, ?_, ?_, ?_⟩ <;> intros <;> unfold detectVowel <;> split_ifs <;>
    first
    | rfl
    | omega

/-- A synthetic fully-open hand: 21 landmarks, tips (8, 12, 16, 20) above
their pips. -/
def openHandLandmarks : List (Option Landmark) :=
  (List.range 21).map (fun i =>
    if i == 8 || i == 12 || i == 16 || i == 20 then some ⟨0, 0⟩ else some ⟨0, 1⟩)

/-- Witness for C4: the synthetic open hand classifies as `A`. -/
theorem detectVowel_classification_witness :
    21 ≤ openHandLandmarks.length ∧ 3 ≤ extendedFingers openHandLandmarks ∧
    detectVowel openHandLandmarks = Vowel.A :=
  ⟨by decide, by decide,
   (detectVowel_classification openHandLandmarks).2.1 (by decide) (by decide)⟩

/-- C5: for every handedness label, role resolution inverts the label
relative to the configured preference — preference `right` assigns the
control role exactly to frames labeled `Left` and the volume role exactly to
frames labeled `Right`, and symmetrically for preference `left`. -/
theorem handRole_inverts_handedness (handedness : String) :
    (isControlHand "right" handedness = (handedness == "Left")) ∧
    (isVolumeHand "right" handedness = (handedness == "Right")) ∧
    (isControlHand "left" handedness = (handedness == "Right")) ∧
    (isVolumeHand "left" handedness = (handedness == "Left")) := by
  refine ⟨?_, ?_, ?_, ?_⟩ <;> simp [isControlHand, isVolumeHand]

/-- C6: a harmonization request carries exactly the quantized note, is
submitted only when that note differs from the last-submitted marker, and the
marker is updated at submission time — so running the effect again on the
same inputs never submits a second request — while detection loss or a
`NONE` vowel clears the marker (and stops audio) without submitting. -/
theorem harmonization_dedup (last : Option ℤ) (inp : FrameInput) :
    (∀ n : ℤ, (harmonizationStep last inp).request = some n →
       some n ≠ last ∧ (harmonizationStep last inp).lastPlayedNote = some n ∧
       n = pitchToMidi inp.pitch) ∧
    ((harmonizationStep (harmonizationStep last inp).lastPlayedNote inp).request = none) ∧
    ((inp.detected = false ∨ inp.vowel = Vowel.NONE) →
       (harmonizationStep last inp).lastPlayedNote = none ∧
       (harmonizationStep last inp).request = none ∧
       (harmonizationStep last inp).stoppedAudio = true) := by
  have hA : (Vowel.A == Vowel.NONE) = false := rfl
  have hO : (Vowel.O == Vowel.NONE) = false := rfl
  have hN : (Vowel.NONE == Vowel.NONE) = true := rfl
  rcases inp with ⟨d, vw, p, r⟩
  by_cases hs : some (pitchToMidi p) = last
  all_goals cases d <;> cases r <;> cases vw <;>
    simp_all [harmonizationStep]

/-- Witness for C6: on a lost hand the marker is cleared. -/
theorem harmonization_dedup_witness :
    (harmonizationStep (some 67) ⟨false, Vowel.NONE, 0, true⟩).lastPlayedNote = none ∧
    (harmonizationStep (some 67) ⟨false, Vowel.NONE, 0, true⟩).request = none ∧
    (harmonizationStep (some 67) ⟨false, Vowel.NONE, 0, true⟩).stoppedAudio = true :=
  (harmonization_dedup (some 67) ⟨false, Vowel.NONE, 0, true⟩).2.2 (Or.inl rfl)

/-- C7: `playChord` always completes with exactly 4 voices (one per SATB
part), `stopAll` with 0; `playChord` first emits one fade-out stop action per
previous voice (a positive-length gain ramp to zero, oscillators stopping
only after it — never an abrupt cut); and every reachable engine state holds
exactly 0 or 4 voices, never 1–3. -/
theorem engine_zero_or_four_voices :
    (∀ (s : EngineState) (soprano alto tenor bass : ℤ),
       (playChord s soprano alto tenor bass).1.currentVoices.length = 4) ∧
    (∀ s : EngineState, (stopAll s).1.currentVoices.length = 0) ∧
    (∀ (s : EngineState) (soprano alto tenor bass : ℤ),
       (playChord s soprano alto tenor bass).2 = s.currentVoices.map (fun p => p.2.stop) ∧
       ∀ a ∈ (playChord s soprano alto tenor bass).2,
         a.rampTarget = 0 ∧ a.rampDuration = releaseTime ∧ 0 < a.rampDuration ∧
         a.oscStopDelay = releaseTime) ∧
    (∀ s : EngineState, Reachable s →
       s.currentVoices.length = 0 ∨ s.currentVoices.length = 4) := by
  have hplay : ∀ (s : EngineState) (soprano alto tenor bass : ℤ),
      (playChord s soprano alto tenor bass).1.currentVoices.length = 4 := by
    intro s soprano alto tenor bass
    rfl
  refine ⟨hplay, fun s => rfl, ?_, ?_⟩
  · intro s soprano alto tenor bass
    refine ⟨rfl, ?_⟩
    intro a ha
    rcases List.mem_map.mp ha with ⟨pr, _, rfl⟩
    exact ⟨rfl, rfl, by norm_num [VocalVoice.stop, releaseTime], rfl⟩
  · intro s h
    induction h with
    | init => left; rfl
    | play s' soprano alto tenor bass _ _ => right; exact hplay s' soprano alto tenor bass
    | stopAllStep s' _ _ => left; rfl

/-- Witness for C7: the state reached by one `playChord` from the initial
state satisfies the 0-or-4 invariant. -/
theorem engine_zero_or_four_voices_witness :
    (playChord ⟨[]⟩ 72 67 64 60).1.currentVoices.length = 0 ∨
    (playChord ⟨[]⟩ 72 67 64 60).1.currentVoices.length = 4 :=
  engine_zero_or_four_voices.2.2.2 _ (Reachable.play ⟨[]⟩ 72 67 64 60 Reachable.init)

/-- C8: `setMasterVolume` clamps the target into `[0,1]` and schedules a
linear ramp of the master gain starting from its current instantaneous value
and reaching the clamped target exactly one `volumeTransitionTime` (50 ms)
later; within the window the rendered gain follows the linear interpolation,
so the change is ramped, never an instantaneous step. -/
theorem setMasterVolume_ramp (gainValue now volume : ℚ) :
    0 ≤ max 0 (min 1 volume) ∧ max 0 (min 1 volume) ≤ 1 ∧
    (setMasterVolume gainValue now volume).startValue = gainValue ∧
    (setMasterVolume gainValue now volume).endValue = max 0 (min 1 volume) ∧
    (setMasterVolume gainValue now volume).endTime =
      (setMasterVolume gainValue now volume).startTime + volumeTransitionTime ∧
    renderRamp (setMasterVolume gainValue now volume) now = gainValue ∧
    renderRamp (setMasterVolume gainValue now volume) (now + volumeTransitionTime) =
      max 0 (min 1 volume) ∧
    ∀ t, now ≤ t → t ≤ now + volumeTransitionTime →
      renderRamp (setMasterVolume gainValue now volume) t =
        gainValue + (t - now) * (max 0 (min 1 volume) - gainValue) / volumeTransitionTime := by
  have hT : (0 : ℚ) < volumeTransitionTime := by norm_num [volumeTransitionTime]
  refine ⟨le_max_left _ _, max_le (by norm_num) (min_le_left _ _), rfl, rfl, rfl, ?_, ?_, ?_⟩
  · unfold renderRamp setMasterVolume
    simp
  · unfold renderRamp setMasterVolume
    simp only
    rw [if_neg (by linarith), if_pos le_rfl]
  · intro t h1 h2
    unfold renderRamp setMasterVolume
    simp only
    split_ifs with ha hb
    · have ht : t = now := le_antisymm ha h1
      rw [ht]
      ring_nf
    · have ht : t = now + volumeTransitionTime := le_antisymm h2 hb
      rw [ht]
      field_simp
    · have : now + volumeTransitionTime - now = volumeTransitionTime := by ring
      rw [this]

/-- Witness for C8 at a concrete over-range target, mid-window. -/
theorem setMasterVolume_ramp_witness :
    renderRamp (setMasterVolume (1/2) 0 2) (1/40) =
      1/2 + ((1/40 : ℚ) - 0) * (max 0 (min 1 (2 : ℚ)) - 1/2) / volumeTransitionTime :=
  (setMasterVolume_ramp (1/2) 0 2).2.2.2.2.2.2.2 (1/40) (by norm_num)
    (by norm_num [volumeTransitionTime])

/-- C9 counterexample: after detection loss the stored volume-hand position
is retained (y = 1/10, i.e. a 9/10 volume), yet the volume target actually
sent to the audio engine falls back to the default 1/2, not the value
derived from the retained position. -/
theorem volume_default_on_loss_counterexample :
    (setVolumeHandFrame ⟨1/10, true⟩ none).y = 1/10 ∧
    (setVolumeHandFrame ⟨1/10, true⟩ none).detected = false ∧
    getVolumeFromY ((setVolumeHandFrame ⟨1/10, true⟩ none).y) = 9/10 ∧
    targetVolume (setVolumeHandFrame ⟨1/10, true⟩ none) = 1/2 ∧
    ¬ targetVolume (setVolumeHandFrame ⟨1/10, true⟩ none) =
        getVolumeFromY ((setVolumeHandFrame ⟨1/10, true⟩ none).y) := by
  have hg : getVolumeFromY ((setVolumeHandFrame ⟨1/10, true⟩ none).y) = 9/10 := by
    show getVolumeFromY (1/10 : ℚ) = 9/10
    unfold getVolumeFromY
    norm_num
  have ht : targetVolume (setVolumeHandFrame ⟨1/10, true⟩ none) = 1/2 := rfl
  refine ⟨rfl, rfl, hg, ht, ?_⟩
  rw [ht, hg]
  norm_num

/-- C9 (amended): on a frame with no assigned hand, the role's `detected`
flag falls to false while the stored position fields are retained (the
control hand's gesture class falls to `NONE`); however, the audio targets
derived from an undetected hand revert to fixed defaults — volume target
1/2 and pitch 0 — rather than being driven by the retained position. -/
theorem sticky_state_default_volume (prev : HandPosition) (prevV : VolumeHand) (y : ℚ) :
    (setControlHandFrame prev none).x = prev.x ∧
    (setControlHandFrame prev none).y = prev.y ∧
    (setControlHandFrame prev none).detected = false ∧
    (setControlHandFrame prev none).vowel = Vowel.NONE ∧
    (setVolumeHandFrame prevV none).y = prevV.y ∧
    (setVolumeHandFrame prevV none).detected = false ∧
    targetVolume ⟨y, false⟩ = 1/2 ∧
    currentPitch ⟨prev.x, prev.y, false, Vowel.NONE⟩ = 0 :=
  ⟨rfl, rfl, rfl, rfl, rfl, rfl, rfl, rfl⟩

/-- C10: a harmony response with fewer than 4 notes leaves the hook state —
current harmony and current sequence — completely unchanged (so no chord
reaches the audio engine), and a response with 4 or more notes installs its
first four notes as soprano, alto, tenor, bass in positional order. -/
theorem handleHarmonyReceived_first_four (isRealTimeMode : Bool)
    (st : HarmonizerHookState) (notes : List HarmonizerNote) :
    (notes.length < 4 → handleHarmonyReceived isRealTimeMode st notes = st) ∧
    (4 ≤ notes.length →
       (handleHarmonyReceived isRealTimeMode st notes).currentHarmony =
         some ⟨notes.getD 0 default, notes.getD 1 default,
               notes.getD 2 default, notes.getD 3 default⟩) := by
  constructor
  · intro h
    simp [handleHarmonyReceived, h]
  · intro h
    have h4 : ¬ notes.length < 4 := by omega
    rcases st with ⟨ch, cs⟩
    cases isRealTimeMode <;> cases cs <;> simp [handleHarmonyReceived, h4]

/-- Witness for C10: a 4-note response installs the four notes positionally. -/
theorem handleHarmonyReceived_first_four_witness :
    (handleHarmonyReceived true ⟨none, none⟩ [⟨60⟩, ⟨64⟩, ⟨67⟩, ⟨72⟩]).currentHarmony =
      some ⟨([⟨60⟩, ⟨64⟩, ⟨67⟩, ⟨72⟩] : List HarmonizerNote).getD 0 default,
            ([⟨60⟩, ⟨64⟩, ⟨67⟩, ⟨72⟩] : List HarmonizerNote).getD 1 default,
            ([⟨60⟩, ⟨64⟩, ⟨67⟩, ⟨72⟩] : List HarmonizerNote).getD 2 default,
            ([⟨60⟩, ⟨64⟩, ⟨67⟩, ⟨72⟩] : List HarmonizerNote).getD 3 default⟩ :=
  (handleHarmonyReceived_first_four true ⟨none, none⟩ [⟨60⟩, ⟨64⟩, ⟨67⟩, ⟨72⟩]).2 (by decide)

end MotionWave
